import Mathlib

/-!
Verification of the crafting-optimization engine in `src/lib/optimize.ts`.

The embedding models JavaScript numbers as rationals (`ℚ`); the one
transcendental step, `Math.pow(progress, 0.2)` inside the discount curve,
is modelled with real-number exponentiation (`Real.rpow`) and floored back
to an integer exactly as the source does with `Math.floor`.

Mutable maps (`Inventory`, `CraftCounts`) are modelled as total functions
`String → ℚ` with default value `0`, matching the source's `map[k] || 0`
reads.  The mutating simulator (`craftOne`, `simulateCraftMode`) is
modelled by explicit state passing; its `while` loops and recursion are
given an explicit fuel parameter, with `none` meaning the fuel bound was
exhausted.  A thrown `Cycle detected` exception is modelled by
`Except.error ()`.
-/

namespace Craft

/-- A recipe, as in the catalog: XP yield, base cost, and an ordered
ingredient list (JS object insertion order). -/
structure Recipe where
  xp : ℚ
  cost : ℚ
  ingredients : List (String × ℚ)
deriving DecidableEq

/-- The recipe catalog: an ordered association list, modelling the JS
object `recipes` (key iteration order = list order). -/
abbrev Recipes := List (String × Recipe)

/-- A count map (inventory or craft counts): total function with default 0,
matching `map[k] || 0` reads in the source. -/
abbrev CountMap := String → ℚ

/-- The all-zero count map (empty JS object). -/
def zeroMap : CountMap := fun _ => 0

/-- `recipes[a]` lookup: first entry with matching key. -/
def lookupRecipe (rs : Recipes) (a : String) : Option Recipe :=
  (rs.find? (fun p => p.1 == a)).map Prod.snd

/-- `Math.round` on a rational (JS rounds half toward +∞). -/
def jsRound (q : ℚ) : ℤ := ⌊q + 1 / 2⌋

/-- `Math.max(0, Math.round(v))`, the normalization used by
`cloneCountMap` on values and by `craftOne` on ingredient quantities. -/
def jsNormalize (q : ℚ) : ℚ := ((max 0 (jsRound q) : ℤ) : ℚ)

/-- `cloneCountMap`: clones a count map, rounding each value and flooring
it at 0 (`Math.max(0, Math.round(value || 0))`). -/
def cloneCountMap (m : CountMap) : CountMap := fun k => jsNormalize (m k)

/-- `getDiscountedCost(baseCost, craftCount)` from the source:
`progress = min(1, craftCount / 300)`,
`multiplier = 1 - 0.9 * progress ** 0.2`,
`discountedCost = floor(baseCost * multiplier)`,
`discountPercent = baseCost > 0 ? 1 - discountedCost / baseCost : 0`,
with an early `(0, 0)` return when `baseCost <= 0`. -/
noncomputable def getDiscountedCost (baseCost craftCount : ℚ) : ℚ × ℚ :=
  if baseCost ≤ 0 then (0, 0)
  else
    let progress : ℝ := min 1 ((craftCount : ℝ) / 300)
    let multiplier : ℝ := 1 - 0.9 * progress ^ (0.2 : ℝ)
    let discountedCost : ℚ := ((⌊(baseCost : ℝ) * multiplier⌋ : ℤ) : ℚ)
    (discountedCost, if 0 < baseCost then 1 - discountedCost / baseCost else 0)

/-- `getBatchDirectCost(baseCost, craftCount, quantity)` from the source:
0 when `baseCost <= 0 || quantity <= 0`; otherwise the sum of
`getDiscountedCost(baseCost, craftCount + index).discountedCost` for
`index` from 0 to `Math.max(0, Math.round(quantity)) - 1`. -/
noncomputable def getBatchDirectCost (baseCost craftCount quantity : ℚ) : ℚ :=
  if baseCost ≤ 0 ∨ quantity ≤ 0 then 0
  else ∑ i in Finset.range (max 0 (jsRound quantity)).toNat,
    (getDiscountedCost baseCost (craftCount + i)).1

/-- Result of one `craftOne` attempt: success flag, the (possibly
mutated) inventory and craft-count maps, and the total cost reported
through the `onCost` callback during the attempt. -/
structure CraftResult where
  success : Bool
  inv : CountMap
  counts : CountMap
  cost : ℚ

/-- The ingredient-deduction phase of `craftOne`:
`inventory[ingredient] = Math.max(0, (inventory[ingredient] || 0) - required)`
for each ingredient in order. -/
def deductIngredients (inv : CountMap) (ings : List (String × ℚ)) : CountMap :=
  ings.foldl (fun acc p => Function.update acc p.1 (max 0 (acc p.1 - jsNormalize p.2))) inv

mutual

/-- `craftOne` from the source, with explicit state passing and fuel.
`none` = fuel exhausted, `Except.error ()` = the thrown
`Cycle detected while simulating recipe` error.  The `stack` list models
the in-progress `Set`; deletion on return is implicit in the scoping. -/
noncomputable def craftOneF (fuel : ℕ) (rs : Recipes) (inv cnt : CountMap)
    (artifact : String) (allow : Bool) (stack : List String) :
    Option (Except Unit CraftResult) :=
  match lookupRecipe rs artifact with
  | none => some (.ok ⟨false, inv, cnt, 0⟩)
  | some recipe =>
    if artifact ∈ stack then some (.error ())
    else
      match ensureAllF fuel rs inv cnt recipe.ingredients allow (artifact :: stack) with
      | none => none
      | some (.error e) => some (.error e)
      | some (.ok r) =>
        if r.success then
          let inv2 := deductIngredients r.inv recipe.ingredients
          let craftCount := r.counts artifact
          let dc := (getDiscountedCost recipe.cost craftCount).1
          some (.ok ⟨true,
            Function.update inv2 artifact (inv2 artifact + 1),
            Function.update r.counts artifact (craftCount + 1),
            r.cost + dc⟩)
        else some (.ok ⟨false, r.inv, r.counts, r.cost⟩)
termination_by (fuel, 2, 0)

/-- The first `for` loop of `craftOne`: ensure every ingredient is
available, auto-crafting the missing ones when allowed. -/
noncomputable def ensureAllF (fuel : ℕ) (rs : Recipes) (inv cnt : CountMap)
    (ings : List (String × ℚ)) (allow : Bool) (stack : List String) :
    Option (Except Unit CraftResult) :=
  match ings with
  | [] => some (.ok ⟨true, inv, cnt, 0⟩)
  | (ing, q) :: rest =>
    match ensureOneF fuel rs inv cnt ing (jsNormalize q) allow stack with
    | none => none
    | some (.error e) => some (.error e)
    | some (.ok r) =>
      if r.success then
        match ensureAllF fuel rs r.inv r.counts rest allow stack with
        | none => none
        | some (.error e) => some (.error e)
        | some (.ok r2) => some (.ok ⟨r2.success, r2.inv, r2.counts, r.cost + r2.cost⟩)
      else some (.ok ⟨false, r.inv, r.counts, r.cost⟩)
termination_by (fuel, 1, ings.length)

/-- The `while ((inventory[ingredient] || 0) < requiredQuantity)` loop of
`craftOne` for one ingredient: fail when auto-craft is off or the
ingredient has no recipe, otherwise recursively craft it and re-check. -/
noncomputable def ensureOneF (fuel : ℕ) (rs : Recipes) (inv cnt : CountMap)
    (ing : String) (req : ℚ) (allow : Bool) (stack : List String) :
    Option (Except Unit CraftResult) :=
  if inv ing < req then
    if !allow || (lookupRecipe rs ing).isNone then some (.ok ⟨false, inv, cnt, 0⟩)
    else
      match fuel with
      | 0 => none
      | n + 1 =>
        match craftOneF n rs inv cnt ing true stack with
        | none => none
        | some (.error e) => some (.error e)
        | some (.ok r) =>
          if r.success then
            match ensureOneF n rs r.inv r.counts ing req allow stack with
            | none => none
            | some (.error e) => some (.error e)
            | some (.ok r2) => some (.ok ⟨r2.success, r2.inv, r2.counts, r.cost + r2.cost⟩)
          else some (.ok ⟨false, r.inv, r.counts, r.cost⟩)
  else some (.ok ⟨true, inv, cnt, 0⟩)
termination_by (fuel, 0, 0)

end

/-- The `while (craftOne(...)) craftedCount += 1` loop of
`simulateCraftMode`, counting successful crafts and accumulating the
costs reported by the `onCost` callback (including those of the final,
failed attempt). -/
noncomputable def simulateLoopF (fuel : ℕ) (rs : Recipes) (inv cnt : CountMap)
    (artifact : String) (allow : Bool) : Option (Except Unit (ℕ × ℚ)) :=
  match fuel with
  | 0 => none
  | n + 1 =>
    match craftOneF (n + 1) rs inv cnt artifact allow [] with
    | none => none
    | some (.error e) => some (.error e)
    | some (.ok r) =>
      if r.success then
        match simulateLoopF n rs r.inv r.counts artifact allow with
        | none => none
        | some (.error e) => some (.error e)
        | some (.ok (k, c)) => some (.ok (k + 1, r.cost + c))
      else some (.ok (0, r.cost))

/-- `simulateCraftMode` from the source: clone (and thereby normalize)
the inventory and craft counts, then repeatedly `craftOne` until failure. -/
noncomputable def simulateCraftModeF (fuel : ℕ) (rs : Recipes) (inv cnt : CountMap)
    (artifact : String) (allow : Bool) : Option (Except Unit (ℕ × ℚ)) :=
  simulateLoopF fuel rs (cloneCountMap inv) (cloneCountMap cnt) artifact allow

mutual

/-- `getRecursiveCraftCost` from the source: depth-first cost of building
one unit of `artifact` from scratch, threading the projected craft-count
map (the source mutates `projectedCraftCounts` in place).  Fueled, since
a cyclic catalog would recurse forever. -/
noncomputable def getRecursiveCraftCostF (fuel : ℕ) (rs : Recipes) (cnt : CountMap)
    (artifact : String) : Option (ℚ × CountMap) :=
  match lookupRecipe rs artifact with
  | none => some (0, cnt)
  | some recipe =>
    match recCostIngsF fuel rs cnt recipe.ingredients with
    | none => none
    | some (c, cnt') =>
      let craftCount := cnt' artifact
      let dc := (getDiscountedCost recipe.cost craftCount).1
      some (c + dc, Function.update cnt' artifact (craftCount + 1))
termination_by (fuel, 2, 0)

/-- The outer ingredient loop of `getRecursiveCraftCost`: ingredients
without a recipe are skipped (`continue`). -/
noncomputable def recCostIngsF (fuel : ℕ) (rs : Recipes) (cnt : CountMap)
    (ings : List (String × ℚ)) : Option (ℚ × CountMap) :=
  match ings with
  | [] => some (0, cnt)
  | (ing, q) :: rest =>
    if (lookupRecipe rs ing).isSome then
      match recCostRepeatF fuel rs cnt ing ⌈q⌉.toNat with
      | none => none
      | some (c, cnt') =>
        match recCostIngsF fuel rs cnt' rest with
        | none => none
        | some (c2, cnt2) => some (c + c2, cnt2)
    else recCostIngsF fuel rs cnt rest
termination_by (fuel, 1, ings.length)

/-- The inner `for (let index = 0; index < quantity; index += 1)` loop of
`getRecursiveCraftCost`: `⌈quantity⌉` separate unit builds of the
ingredient, each advancing its projected craft count. -/
noncomputable def recCostRepeatF (fuel : ℕ) (rs : Recipes) (cnt : CountMap)
    (ing : String) (k : ℕ) : Option (ℚ × CountMap) :=
  match k with
  | 0 => some (0, cnt)
  | k' + 1 =>
    match fuel with
    | 0 => none
    | n + 1 =>
      match getRecursiveCraftCostF n rs cnt ing with
      | none => none
      | some (c, cnt') =>
        match recCostRepeatF (n + 1) rs cnt' ing k' with
        | none => none
        | some (c2, cnt2) => some (c + c2, cnt2)
termination_by (fuel, 0, k)

end

/-- `getRecursiveCost` from the source: run the recursive evaluator on a
private copy of the craft counts (copying is implicit in the functional
model) and return only the cost. -/
noncomputable def getRecursiveCostF (fuel : ℕ) (rs : Recipes) (cnt : CountMap)
    (artifact : String) : Option ℚ :=
  (getRecursiveCraftCostF fuel rs cnt artifact).map Prod.fst

/-- One entry of the one-level ingredient cost breakdown. -/
structure IngredientCost where
  name : String
  quantity : ℚ
  baseCost : ℚ
  discountedCost : ℚ
  totalCost : ℚ
  craftCount : ℚ
  discountPercent : ℚ

/-- `getIngredientCosts` from the source. -/
noncomputable def getIngredientCosts (rs : Recipes) (cnt : CountMap)
    (artifact : String) : List IngredientCost :=
  match lookupRecipe rs artifact with
  | none => []
  | some recipe =>
    recipe.ingredients.map (fun p =>
      let baseCost := match lookupRecipe rs p.1 with
        | some r => r.cost
        | none => 0
      let craftCount := cnt p.1
      let d := getDiscountedCost baseCost craftCount
      ⟨p.1, p.2, baseCost, d.1, getBatchDirectCost baseCost craftCount p.2,
        craftCount, d.2⟩)

/-- The per-artifact cost report. -/
structure CostDetails where
  baseCost : ℚ
  discountedCost : ℚ
  totalDirectCost : ℚ
  craftCount : ℚ
  discountPercent : ℚ
  recursiveCost : ℚ
  ingredients : List IngredientCost

/-- `getCostDetails` from the source (fueled through the recursive cost). -/
noncomputable def getCostDetailsF (fuel : ℕ) (rs : Recipes) (cnt : CountMap)
    (artifact : String) (plannedCrafts : ℚ) : Option CostDetails :=
  match lookupRecipe rs artifact with
  | none => some ⟨0, 0, 0, 0, 0, 0, []⟩
  | some recipe =>
    match getRecursiveCostF fuel rs cnt artifact with
    | none => none
    | some rc =>
      let craftCount := cnt artifact
      let d := getDiscountedCost recipe.cost craftCount
      some ⟨recipe.cost, d.1,
        getBatchDirectCost recipe.cost craftCount plannedCrafts,
        craftCount, d.2, rc, getIngredientCosts rs cnt artifact⟩

/-- Metrics for one crafting policy, as reported by
`getCraftModeComparison`. -/
structure CraftModeMetrics where
  count : ℚ
  xp : ℚ
  cost : ℚ
  xpPerGe : ℚ

/-- Comparison of direct vs auto-craft policies; `auto = none` when no
ingredient is craftable. -/
structure CraftModeComparison where
  direct : CraftModeMetrics
  auto : Option CraftModeMetrics

/-- `getCraftModeComparison` from the source. -/
noncomputable def getCraftModeComparisonF (fuel : ℕ) (rs : Recipes) (inv cnt : CountMap)
    (artifact : String) (xpPerCraft : ℚ) : Option (Except Unit CraftModeComparison) :=
  match simulateCraftModeF fuel rs inv cnt artifact false with
  | none => none
  | some (.error e) => some (.error e)
  | some (.ok (k, c)) =>
    let direct : CraftModeMetrics :=
      ⟨k, k * xpPerCraft, c, if 0 < c then (k * xpPerCraft) / c else 0⟩
    match lookupRecipe rs artifact with
    | none => some (.ok ⟨direct, none⟩)
    | some recipe =>
      if recipe.ingredients.any (fun p => (lookupRecipe rs p.1).isSome) then
        match simulateCraftModeF fuel rs inv cnt artifact true with
        | none => none
        | some (.error e) => some (.error e)
        | some (.ok (k2, c2)) =>
          some (.ok ⟨direct,
            some ⟨k2, k2 * xpPerCraft, c2, if 0 < c2 then (k2 * xpPerCraft) / c2 else 0⟩⟩)
      else some (.ok ⟨direct, none⟩)

/-- One row of the `Solution.crafts` table. -/
structure CraftEntry where
  count : ℚ
  xp : ℚ
  cost : ℚ
  xpPerGe : ℚ
  xpPerCraft : ℚ
  costDetails : CostDetails
  modeComparison : CraftModeComparison

/-- The `Solution` returned by `optimizeCrafts`: per-artifact rows (in
solver column order) plus grand totals. -/
structure Solution where
  crafts : List (String × CraftEntry)
  totalXp : ℚ
  totalCost : ℚ

/-- The `for (const artifact in solution.Columns)` loop of
`optimizeCrafts`: artifacts without a recipe are skipped, each other
column is paired with cost details and the mode comparison, and the
totals are accumulated. -/
noncomputable def optimizeCraftsLoopF (fuel : ℕ) (rs : Recipes)
    (columns : List (String × ℚ)) (inv cnt : CountMap) :
    Option (Except Unit Solution) :=
  match columns with
  | [] => some (.ok ⟨[], 0, 0⟩)
  | (a, primal) :: rest =>
    match lookupRecipe rs a with
    | none => optimizeCraftsLoopF fuel rs rest inv cnt
    | some recipe =>
      match getCostDetailsF fuel rs cnt a primal with
      | none => none
      | some cd =>
        match getCraftModeComparisonF fuel rs inv cnt a recipe.xp with
        | none => none
        | some (.error e) => some (.error e)
        | some (.ok mc) =>
          match optimizeCraftsLoopF fuel rs rest inv cnt with
          | none => none
          | some (.error e) => some (.error e)
          | some (.ok sol) =>
            let xp := primal * recipe.xp
            let cost := cd.totalDirectCost
            let entry : CraftEntry :=
              ⟨primal, xp, cost, if 0 < cost then xp / cost else 0,
                recipe.xp, cd, mc⟩
            some (.ok ⟨(a, entry) :: sol.crafts, xp + sol.totalXp, cost + sol.totalCost⟩)

/-- Rendering of a JS number into problem text: integral values print
with no decimal point (`2` not `2/1`), as JS string interpolation does. -/
def numStr (q : ℚ) : String := if q.den = 1 then toString q.num else toString q

/-- `getObjective` from the source: `"xp artifact"` monomials joined by
`" + "`, skipping artifacts without a recipe. -/
def getObjective (rs : Recipes) (artifacts : List String) : String :=
  String.intercalate " + "
    (artifacts.filterMap (fun a => (lookupRecipe rs a).map (fun r => numStr r.xp ++ " " ++ a)))

/-- `getConstraint` from the source: collect `"quantity parent"` terms for
every catalog recipe that uses `artifact` as an ingredient; `none` when
nothing uses it; subtract the artifact's own variable when it is itself
craftable; bound by `inventory[artifact] || 0`. -/
def getConstraint (rs : Recipes) (inv : CountMap) (artifact : String) : Option String :=
  let used := rs.filterMap (fun p =>
    (p.2.ingredients.find? (fun ip => ip.1 == artifact)).map
      (fun ip => numStr ip.2 ++ " " ++ p.1))
  if used = [] then none
  else
    let available := inv artifact
    if (lookupRecipe rs artifact).isSome then
      some (String.intercalate " + " used ++ " - " ++ artifact ++ " <= " ++ numStr available)
    else
      some (String.intercalate " + " used ++ " <= " ++ numStr available)

/-- The lines of `getProblem` from the source: objective over the
lexicographically sorted catalog keys, one named constraint per catalog
key that yields one, non-negativity bounds, and the integrality section. -/
def getProblemLines (rs : Recipes) (inv : CountMap) : List String :=
  let artifacts := (rs.map Prod.fst).mergeSort (fun a b => a ≤ b)
  ["Maximize", "  obj: " ++ getObjective rs artifacts, "Subject To"]
  ++ artifacts.filterMap (fun a =>
      (getConstraint rs inv a).map (fun c => "  c_" ++ a ++ ": " ++ c))
  ++ ["Bounds"]
  ++ artifacts.map (fun a => "  " ++ a ++ " >= 0")
  ++ ["General", "  " ++ String.intercalate " " artifacts, "End"]

/-- `getProblem` from the source: the joined problem text. -/
def getProblem (rs : Recipes) (inv : CountMap) : String :=
  String.intercalate "\n" (getProblemLines rs inv)

/-- `optimizeCrafts` from the source: build the problem, run the solver
(modelled as a function from problem text to the `Columns` association
list of primal values), and fold the columns into a `Solution`. -/
noncomputable def optimizeCraftsF (fuel : ℕ) (rs : Recipes)
    (solve : String → List (String × ℚ)) (inv cnt : CountMap) :
    Option (Except Unit Solution) :=
  optimizeCraftsLoopF fuel rs (solve (getProblem rs inv)) inv cnt

/-! ### Helper lemmas -/

/-- Unfolding of `getDiscountedCost` on a positive base cost. -/
theorem getDiscountedCost_pos_eq (b c : ℚ) (hb : 0 < b) :
    getDiscountedCost b c =
      (((⌊(b : ℝ) * (1 - 0.9 * (min 1 ((c : ℝ) / 300)) ^ (0.2 : ℝ))⌋ : ℤ) : ℚ),
        1 - ((⌊(b : ℝ) * (1 - 0.9 * (min 1 ((c : ℝ) / 300)) ^ (0.2 : ℝ))⌋ : ℤ) : ℚ) / b) := by
  simp only [getDiscountedCost, if_neg (not_le.mpr hb), if_pos hb]

/-- `getDiscountedCost` on a non-positive base cost is `(0, 0)`. -/
theorem getDiscountedCost_nonpos_eq (b c : ℚ) (hb : b ≤ 0) :
    getDiscountedCost b c = (0, 0) := by
  simp only [getDiscountedCost, if_pos hb]

/-- A rational lower bound on a real fifth root via fifth powers. -/
theorem rpow_fifth_lower {x a : ℝ} (ha : 0 ≤ a) (h : a ^ (5 : ℕ) < x) :
    a < x ^ (0.2 : ℝ) := by
  have h5 : (a ^ (5 : ℕ) : ℝ) ^ (0.2 : ℝ) < x ^ (0.2 : ℝ) :=
    Real.rpow_lt_rpow (by positivity) h (by norm_num)
  calc a = (a ^ (5 : ℕ) : ℝ) ^ (0.2 : ℝ) := by
            rw [← Real.rpow_natCast a 5, ← Real.rpow_mul ha]
            norm_num
    _ < x ^ (0.2 : ℝ) := h5

/-- A rational upper bound on a real fifth root via fifth powers. -/
theorem rpow_fifth_upper {x b : ℝ} (hx : 0 ≤ x) (hb : 0 ≤ b) (h : x < b ^ (5 : ℕ)) :
    x ^ (0.2 : ℝ) < b := by
  have h5 : x ^ (0.2 : ℝ) < (b ^ (5 : ℕ) : ℝ) ^ (0.2 : ℝ) :=
    Real.rpow_lt_rpow hx h (by norm_num)
  calc x ^ (0.2 : ℝ) < (b ^ (5 : ℕ) : ℝ) ^ (0.2 : ℝ) := h5
    _ = b := by
          rw [← Real.rpow_natCast b 5, ← Real.rpow_mul hb]
          norm_num

/-! ### C5: batch direct cost -/

/-- C5: for all `baseCost`, `startCraftCount` and `quantity`,
`getBatchDirectCost baseCost start quantity` equals the sum of
`discount(baseCost, start + i).unitCost` over `i < round(quantity)`,
and it is 0 whenever `quantity ≤ 0` or `baseCost ≤ 0`. -/
theorem getBatchDirectCost_eq_sum (b c q : ℚ) :
    getBatchDirectCost b c q =
      (∑ i in Finset.range (jsRound q).toNat, (getDiscountedCost b (c + i)).1) ∧
    ((q ≤ 0 ∨ b ≤ 0) → getBatchDirectCost b c q = 0) := by
  constructor
  · by_cases hb : b ≤ 0
    · rw [getBatchDirectCost, if_pos (Or.inl hb)]
      refine (Finset.sum_eq_zero fun i _ => ?_).symm
      rw [getDiscountedCost_nonpos_eq _ _ hb]
    · by_cases hq : q ≤ 0
      · rw [getBatchDirectCost, if_pos (Or.inr hq)]
        have hr : jsRound q ≤ 0 := by
          have : ⌊q + 1 / 2⌋ ≤ ⌊(1 : ℚ) / 2⌋ := Int.floor_le_floor (by linarith)
          simpa [jsRound] using this.trans_eq (by norm_num)
        rw [Int.toNat_of_nonpos hr]
        simp
      · rw [getBatchDirectCost, if_neg (by push_neg; constructor <;> linarith)]
        have hr : 0 ≤ jsRound q := by
          have : (0 : ℤ) = ⌊(1 : ℚ) / 2⌋ := by norm_num
          rw [jsRound, this]
          exact Int.floor_le_floor (by linarith)
        rw [max_eq_right hr]
  · intro h
    rw [getBatchDirectCost, if_pos (Or.symm h)]

/-- Witness for C5 at `baseCost = 5`, `start = 0`, `quantity = 0`. -/
theorem getBatchDirectCost_eq_sum_witness :
    getBatchDirectCost 5 0 0 = 0 :=
  (getBatchDirectCost_eq_sum 5 0 0).2 (Or.inl le_rfl)

/-! ### C8: discount with no crafting history -/

/-- C8 counterexample: at `baseCost = 1/2 > 0` the source returns
`(floor(1/2), 1) = (0, 1)`, not `(baseCost, 0)` as the claim states. -/
theorem getDiscountedCost_half_counterexample :
    0 < (1 / 2 : ℚ) ∧ getDiscountedCost (1 / 2) 0 = (0, 1) ∧
      ((0 : ℚ), (1 : ℚ)) ≠ ((1 / 2 : ℚ), (0 : ℚ)) := by
  refine ⟨by norm_num, ?_, by norm_num⟩
  rw [getDiscountedCost_pos_eq _ _ (by norm_num)]
  norm_num [Real.zero_rpow]

/-- C8 amended: for every `baseCost > 0` that is a whole number,
`getDiscountedCost baseCost 0` is `(baseCost, 0)`. -/
theorem getDiscountedCost_zero_history (b : ℚ) (n : ℤ) (hb : 0 < b) (hn : b = (n : ℚ)) :
    getDiscountedCost b 0 = (b, 0) := by
  rw [getDiscountedCost_pos_eq _ _ hb]
  have h1 : (min 1 (((0 : ℚ) : ℝ) / 300)) = (0 : ℝ) := by norm_num
  rw [h1, Real.zero_rpow (by norm_num)]
  have h2 : ((b : ℝ) * (1 - 0.9 * 0)) = ((n : ℤ) : ℝ) := by
    rw [hn]; push_cast; ring
  rw [h2, Int.floor_intCast]
  have hb0 : b ≠ 0 := ne_of_gt hb
  rw [← hn]
  rw [div_self hb0]
  norm_num

/-- Witness for C8's amended theorem at `baseCost = 100`. -/
theorem getDiscountedCost_zero_history_witness :
    0 < (100 : ℚ) ∧ getDiscountedCost 100 0 = (100, 0) :=
  ⟨by norm_num, getDiscountedCost_zero_history 100 100 (by norm_num) (by norm_num)⟩

/-! ### C10: discount bounds -/

/-- C10: for `baseCost > 0` and `craftCount ≥ 0` the discounted unit cost
lies in `[0, baseCost]` and the discount fraction lies in `[0, 1]`. -/
theorem getDiscountedCost_bounds (b c : ℚ) (hb : 0 < b) (hc : 0 ≤ c) :
    0 ≤ (getDiscountedCost b c).1 ∧ (getDiscountedCost b c).1 ≤ b ∧
    0 ≤ (getDiscountedCost b c).2 ∧ (getDiscountedCost b c).2 ≤ 1 := by
  rw [getDiscountedCost_pos_eq _ _ hb]
  set p : ℝ := min 1 ((c : ℝ) / 300) with hp
  have hp0 : 0 ≤ p := le_min (by norm_num) (by positivity)
  have hp1 : p ≤ 1 := min_le_left _ _
  have hr0 : (0 : ℝ) ≤ p ^ (0.2 : ℝ) := Real.rpow_nonneg hp0 _
  have hr1 : p ^ (0.2 : ℝ) ≤ 1 := Real.rpow_le_one hp0 hp1 (by norm_num)
  set m : ℝ := 1 - 0.9 * p ^ (0.2 : ℝ) with hm
  have hm0 : 0 ≤ m := by rw [hm]; nlinarith
  have hm1 : m ≤ 1 := by rw [hm]; nlinarith
  have hbR : (0 : ℝ) < (b : ℝ) := by exact_mod_cast hb
  have hx0 : (0 : ℝ) ≤ (b : ℝ) * m := by positivity
  have hxb : (b : ℝ) * m ≤ (b : ℝ) := by nlinarith
  have hf0 : (0 : ℤ) ≤ ⌊(b : ℝ) * m⌋ := Int.floor_nonneg.mpr hx0
  have hfb : ((⌊(b : ℝ) * m⌋ : ℤ) : ℝ) ≤ (b : ℝ) := (Int.floor_le _).trans hxb
  have hq0 : (0 : ℚ) ≤ ((⌊(b : ℝ) * m⌋ : ℤ) : ℚ) := by exact_mod_cast hf0
  have hqb : ((⌊(b : ℝ) * m⌋ : ℤ) : ℚ) ≤ b := by
    have := hfb
    push_cast at this ⊢
    exact_mod_cast this
  refine ⟨hq0, hqb, ?_, ?_⟩
  · have : ((⌊(b : ℝ) * m⌋ : ℤ) : ℚ) / b ≤ 1 := by
      rw [div_le_one hb]; exact hqb
    simpa using this
  · have : 0 ≤ ((⌊(b : ℝ) * m⌋ : ℤ) : ℚ) / b := by positivity
    simp only []
    linarith

/-- Witness for C10 at `baseCost = 100`, `craftCount = 0`. -/
theorem getDiscountedCost_bounds_witness :
    0 ≤ (getDiscountedCost 100 0).1 ∧ (getDiscountedCost 100 0).1 ≤ 100 ∧
    0 ≤ (getDiscountedCost 100 0).2 ∧ (getDiscountedCost 100 0).2 ≤ 1 :=
  getDiscountedCost_bounds 100 0 (by norm_num) (by norm_num)

/-! ### C6: defensive normalization -/

/-- Normalization is idempotent: a normalized value is a non-negative
integer, which rounds and floors to itself. -/
theorem jsNormalize_idem (v : ℚ) : jsNormalize (jsNormalize v) = jsNormalize v := by
  unfold jsNormalize
  set z : ℤ := max 0 (jsRound v) with hz
  have hz0 : 0 ≤ z := le_max_left _ _
  have hrz : jsRound ((z : ℤ) : ℚ) = z := by
    rw [jsRound, add_comm, Int.floor_add_int]
    norm_num
  rw [hrz, max_eq_right hz0]

/-- Cloning is idempotent. -/
theorem cloneCountMap_idem (m : CountMap) :
    cloneCountMap (cloneCountMap m) = cloneCountMap m := by
  funext k
  exact jsNormalize_idem (m k)

/-- C6 counterexample: the cost computation `getDiscountedCost` does NOT
behave as it would on the normalized craft count.  At `baseCost = 1000`
and fractional `craftCount = 1/2` the unit cost is 749, while at the
normalized count `jsNormalize (1/2) = 1` it is 712. -/
theorem getDiscountedCost_not_normalized :
    jsNormalize (1 / 2) = 1 ∧
    (getDiscountedCost 1000 (1 / 2)).1 = 749 ∧
    (getDiscountedCost 1000 (jsNormalize (1 / 2))).1 = 712 ∧
    (getDiscountedCost 1000 (1 / 2)).1 ≠ (getDiscountedCost 1000 (jsNormalize (1 / 2))).1 := by
  have hnorm : jsNormalize (1 / 2 : ℚ) = 1 := by
    rw [jsNormalize, jsRound]
    norm_num
  have h749 : (getDiscountedCost 1000 (1 / 2)).1 = 749 := by
    rw [getDiscountedCost_pos_eq _ _ (by norm_num)]
    have hprog : (min 1 ((((1 : ℚ) / 2 : ℚ) : ℝ) / 300)) = ((1 : ℝ) / 600) := by
      rw [min_eq_right (by push_cast; norm_num)]
      push_cast; norm_num
    rw [hprog]
    have hlow : (0.2778 : ℝ) < ((1 : ℝ) / 600) ^ (0.2 : ℝ) :=
      rpow_fifth_lower (by norm_num) (by norm_num)
    have hupp : ((1 : ℝ) / 600) ^ (0.2 : ℝ) < (0.2788 : ℝ) :=
      rpow_fifth_upper (by norm_num) (by norm_num) (by norm_num)
    have hcast : (((1000 : ℚ) : ℝ)) = (1000 : ℝ) := by norm_num
    rw [hcast]
    have hfloor : ⌊(1000 : ℝ) * (1 - 0.9 * ((1 : ℝ) / 600) ^ (0.2 : ℝ))⌋ = 749 := by
      rw [Int.floor_eq_iff]
      constructor
      · push_cast; nlinarith
      · push_cast; nlinarith
    rw [hfloor]
    norm_num
  have h712 : (getDiscountedCost 1000 (jsNormalize (1 / 2))).1 = 712 := by
    rw [hnorm, getDiscountedCost_pos_eq _ _ (by norm_num)]
    have hprog : (min 1 (((1 : ℚ) : ℝ) / 300)) = ((1 : ℝ) / 300) := by
      rw [min_eq_right (by push_cast; norm_num)]
      push_cast; norm_num
    rw [hprog]
    have hlow : (0.319 : ℝ) < ((1 : ℝ) / 300) ^ (0.2 : ℝ) :=
      rpow_fifth_lower (by norm_num) (by norm_num)
    have hupp : ((1 : ℝ) / 300) ^ (0.2 : ℝ) < (0.3199 : ℝ) :=
      rpow_fifth_upper (by norm_num) (by norm_num) (by norm_num)
    have hcast : (((1000 : ℚ) : ℝ)) = (1000 : ℝ) := by norm_num
    rw [hcast]
    have hfloor : ⌊(1000 : ℝ) * (1 - 0.9 * ((1 : ℝ) / 300) ^ (0.2 : ℝ))⌋ = 712 := by
      rw [Int.floor_eq_iff]
      constructor
      · push_cast; nlinarith
      · push_cast; nlinarith
    rw [hfloor]
    norm_num
  refine ⟨hnorm, h749, h712, ?_⟩
  rw [h749, h712]
  norm_num

/-- C6 amended: the SIMULATION inputs are defensively normalized —
`simulateCraftMode` behaves on any inventory and craft-count maps exactly
as it behaves on their normalized (rounded, floored-at-0) forms, because
it clones them through `cloneCountMap` first. -/
theorem simulateCraftMode_normalizes (fuel : ℕ) (rs : Recipes) (inv cnt : CountMap)
    (artifact : String) (allow : Bool) :
    simulateCraftModeF fuel rs inv cnt artifact allow =
      simulateCraftModeF fuel rs (cloneCountMap inv) (cloneCountMap cnt) artifact allow := by
  unfold simulateCraftModeF
  rw [cloneCountMap_idem, cloneCountMap_idem]

/-! ### Simulator lemmas -/

/-- Every ingredient of the list is on hand in its required (rounded)
quantity. -/
def allSufficient (inv : CountMap) (ings : List (String × ℚ)) : Bool :=
  ings.all (fun p => decide (jsNormalize p.2 ≤ inv p.1))

/-- `allSufficient` on a cons. -/
theorem allSufficient_cons (inv : CountMap) (ing : String) (q : ℚ)
    (tl : List (String × ℚ)) :
    allSufficient inv ((ing, q) :: tl) =
      (decide (jsNormalize q ≤ inv ing) && allSufficient inv tl) := by
  simp [allSufficient]

/-- `ensureOneF` when the ingredient is already on hand: a no-op. -/
theorem ensureOneF_sufficient (fuel : ℕ) (rs : Recipes) (inv cnt : CountMap)
    (ing : String) (req : ℚ) (allow : Bool) (stack : List String)
    (h : req ≤ inv ing) :
    ensureOneF fuel rs inv cnt ing req allow stack =
      some (.ok ⟨true, inv, cnt, 0⟩) := by
  rw [ensureOneF.eq_def]
  simp [not_lt.mpr h]

/-- `ensureOneF` in direct mode when the ingredient is short: fail with
no state change. -/
theorem ensureOneF_direct_short (fuel : ℕ) (rs : Recipes) (inv cnt : CountMap)
    (ing : String) (req : ℚ) (stack : List String)
    (h : inv ing < req) :
    ensureOneF fuel rs inv cnt ing req false stack =
      some (.ok ⟨false, inv, cnt, 0⟩) := by
  rw [ensureOneF.eq_def]
  simp [h]

/-- In direct mode (`allowAutocraft = false`) the ingredient-ensuring
phase never mutates state, never charges cost, never consumes fuel and
never throws: it just reports whether every ingredient is sufficient. -/
theorem ensureAllF_direct (fuel : ℕ) (rs : Recipes) (inv cnt : CountMap)
    (ings : List (String × ℚ)) (stack : List String) :
    ensureAllF fuel rs inv cnt ings false stack =
      some (.ok ⟨allSufficient inv ings, inv, cnt, 0⟩) := by
  induction ings with
  | nil => rw [ensureAllF]; simp [allSufficient]
  | cons hd tl ih =>
    obtain ⟨ing, q⟩ := hd
    rw [allSufficient_cons]
    by_cases h : inv ing < jsNormalize q
    · rw [ensureAllF, ensureOneF_direct_short _ _ _ _ _ _ _ h]
      simp [not_le.mpr h]
    · rw [ensureAllF, ensureOneF_sufficient _ _ _ _ _ _ _ _ (not_lt.mp h)]
      simp [ih, not_lt.mp h]

/-- When every ingredient is already sufficient, the ensuring phase is a
no-op in either mode. -/
theorem ensureAllF_sufficient (fuel : ℕ) (rs : Recipes) (inv cnt : CountMap)
    (ings : List (String × ℚ)) (allow : Bool) (stack : List String)
    (h : allSufficient inv ings = true) :
    ensureAllF fuel rs inv cnt ings allow stack =
      some (.ok ⟨true, inv, cnt, 0⟩) := by
  induction ings with
  | nil => rw [ensureAllF]
  | cons hd tl ih =>
    obtain ⟨ing, q⟩ := hd
    rw [allSufficient_cons, Bool.and_eq_true, decide_eq_true_eq] at h
    rw [ensureAllF, ensureOneF_sufficient _ _ _ _ _ _ _ _ h.1]
    simp [ih h.2]

/-- The state produced by a successful craft of `artifact`: ingredients
deducted, the artifact's inventory and craft count incremented, and the
discounted unit cost charged. -/
noncomputable def craftSuccess (recipe : Recipe) (inv cnt : CountMap)
    (artifact : String) : CraftResult :=
  let inv2 := deductIngredients inv recipe.ingredients
  ⟨true, Function.update inv2 artifact (inv2 artifact + 1),
    Function.update cnt artifact (cnt artifact + 1),
    (getDiscountedCost recipe.cost (cnt artifact)).1⟩

/-- Direct-mode `craftOne` in full: no recursion, no fuel use, no
exception (off the stack), no mutation on failure. -/
theorem craftOneF_direct (fuel : ℕ) (rs : Recipes) (inv cnt : CountMap)
    (a : String) (stack : List String) (recipe : Recipe)
    (hl : lookupRecipe rs a = some recipe) (hs : a ∉ stack) :
    craftOneF fuel rs inv cnt a false stack =
      if allSufficient inv recipe.ingredients then
        some (.ok (craftSuccess recipe inv cnt a))
      else some (.ok ⟨false, inv, cnt, 0⟩) := by
  rw [craftOneF, hl]
  simp only [if_neg hs]
  rw [ensureAllF_direct]
  by_cases h : allSufficient inv recipe.ingredients
  · simp only [h, if_pos rfl, if_true]
    rw [craftSuccess]
    simp
  · have h' : allSufficient inv recipe.ingredients = false := by
      simpa using h
    simp [h']

/-- Replay: whenever direct-mode `craftOne` succeeds, `craftOne` in ANY
mode and with ANY fuel performs exactly the same craft (no ingredient is
short, so the auto-craft fallback is never consulted). -/
theorem craftOneF_replay (fuel fuel' : ℕ) (rs : Recipes) (inv cnt : CountMap)
    (a : String) (stack : List String) (allow : Bool) (r : CraftResult)
    (hd : craftOneF fuel rs inv cnt a false stack = some (.ok r))
    (hr : r.success = true) :
    craftOneF fuel' rs inv cnt a allow stack = some (.ok r) := by
  match hl : lookupRecipe rs a with
  | none =>
    rw [craftOneF, hl] at hd
    cases hd
    simp at hr
  | some recipe =>
    by_cases hs : a ∈ stack
    · rw [craftOneF, hl] at hd
      simp only [if_pos hs] at hd
      cases hd
    · rw [craftOneF_direct fuel rs inv cnt a stack recipe hl hs] at hd
      by_cases hsuff : allSufficient inv recipe.ingredients
      · rw [if_pos hsuff] at hd
        rw [craftOneF, hl]
        simp only [if_neg hs]
        rw [ensureAllF_sufficient _ _ _ _ _ _ _ hsuff]
        simp only [if_pos rfl, if_true]
        cases hd
        rw [craftSuccess]
        simp
      · rw [if_neg hsuff] at hd
        cases hd
        simp at hr

/-! ### C7: direct-mode failure leaves state unchanged -/

/-- C7: when auto-craft is disallowed and some ingredient of the target's
recipe is short, `craftOne` returns `false` without touching the
inventory or craft-count maps and without charging any cost. -/
theorem craftOneF_direct_failure (fuel : ℕ) (rs : Recipes) (inv cnt : CountMap)
    (a : String) (recipe : Recipe) (ing : String) (q : ℚ)
    (hl : lookupRecipe rs a = some recipe)
    (hmem : (ing, q) ∈ recipe.ingredients)
    (hshort : inv ing < jsNormalize q) :
    craftOneF fuel rs inv cnt a false [] = some (.ok ⟨false, inv, cnt, 0⟩) := by
  rw [craftOneF_direct fuel rs inv cnt a [] recipe hl (List.not_mem_nil a)]
  have : allSufficient inv recipe.ingredients = false := by
    simp only [allSufficient, List.all_eq_true, not_forall]
    simp only [List.all_eq_false]
    exact ⟨(ing, q), hmem, by simp [not_le.mpr hshort]⟩
  rw [this]
  simp

/-- Witness for C7: recipe `A` needs 2 `raw`, only 1 on hand. -/
theorem craftOneF_direct_failure_witness :
    craftOneF 5 [("A", ⟨5, 0, [("raw", 2)]⟩)]
        (fun k => if k = "raw" then 1 else 0) zeroMap "A" false [] =
      some (.ok ⟨false, fun k => if k = "raw" then 1 else 0, zeroMap, 0⟩) := by
  refine craftOneF_direct_failure 5 _ _ _ "A" ⟨5, 0, [("raw", 2)]⟩ "raw" 2 ?_ ?_ ?_
  · rw [lookupRecipe]; rfl
  · simp
  · simp only [if_pos rfl]
    rw [jsNormalize, jsRound]
    norm_num

/-! ### C3: cycle detection -/

/-- Unfolding of `craftOneF` when the recipe exists and the artifact is
not on the stack. -/
theorem craftOneF_eq (fuel : ℕ) (rs : Recipes) (inv cnt : CountMap)
    (a : String) (allow : Bool) (stack : List String) (recipe : Recipe)
    (hl : lookupRecipe rs a = some recipe) (hs : a ∉ stack) :
    craftOneF fuel rs inv cnt a allow stack =
      match ensureAllF fuel rs inv cnt recipe.ingredients allow (a :: stack) with
      | none => none
      | some (.error e) => some (.error e)
      | some (.ok r) =>
        if r.success then
          let inv2 := deductIngredients r.inv recipe.ingredients
          let craftCount := r.counts a
          let dc := (getDiscountedCost recipe.cost craftCount).1
          some (.ok ⟨true,
            Function.update inv2 a (inv2 a + 1),
            Function.update r.counts a (craftCount + 1),
            r.cost + dc⟩)
        else some (.ok ⟨false, r.inv, r.counts, r.cost⟩) := by
  rw [craftOneF, hl]
  simp only [if_neg hs]

/-- One step of the auto-craft `while` loop when the ingredient is short
but craftable. -/
theorem ensureOneF_step (n : ℕ) (rs : Recipes) (inv cnt : CountMap)
    (ing : String) (req : ℚ) (stack : List String)
    (hshort : inv ing < req) (hrec : (lookupRecipe rs ing).isSome = true) :
    ensureOneF (n + 1) rs inv cnt ing req true stack =
      match craftOneF n rs inv cnt ing true stack with
      | none => none
      | some (.error e) => some (.error e)
      | some (.ok r) =>
        if r.success then
          match ensureOneF n rs r.inv r.counts ing req true stack with
          | none => none
          | some (.error e) => some (.error e)
          | some (.ok r2) => some (.ok ⟨r2.success, r2.inv, r2.counts, r.cost + r2.cost⟩)
        else some (.ok ⟨false, r.inv, r.counts, r.cost⟩) := by
  rw [ensureOneF.eq_def]
  obtain ⟨v, hv⟩ := Option.isSome_iff_exists.mp hrec
  simp only [hv, if_pos hshort, Bool.not_true, Option.isNone_some, Bool.or_self,
    Bool.false_eq_true, if_false]

/-- The cyclic two-recipe catalog: `A` requires 1 `B`, `B` requires 1 `A`. -/
def cycCatalog : Recipes :=
  [("A", ⟨1, 0, [("B", 1)]⟩), ("B", ⟨1, 0, [("A", 1)]⟩)]

/-- C3: `craftOne` fails fatally with the cycle error whenever the target
artifact (one that has a recipe) is already on the in-progress call
stack; concretely, for the catalog `A ↔ B`, crafting `A` from an empty
inventory (with any fuel ≥ 2, i.e. instead of recursing indefinitely)
raises the cycle error. -/
theorem craftOneF_cycle :
    (∀ (fuel : ℕ) (rs : Recipes) (inv cnt : CountMap) (a : String) (allow : Bool)
      (stack : List String) (recipe : Recipe),
      lookupRecipe rs a = some recipe → a ∈ stack →
      craftOneF fuel rs inv cnt a allow stack = some (.error ())) ∧
    (∀ n : ℕ,
      craftOneF (n + 2) cycCatalog zeroMap zeroMap "A" true [] = some (.error ())) := by
  have general : ∀ (fuel : ℕ) (rs : Recipes) (inv cnt : CountMap) (a : String)
      (allow : Bool) (stack : List String) (recipe : Recipe),
      lookupRecipe rs a = some recipe → a ∈ stack →
      craftOneF fuel rs inv cnt a allow stack = some (.error ()) := by
    intro fuel rs inv cnt a allow stack recipe hl hs
    rw [craftOneF, hl]
    simp only [if_pos hs]
  refine ⟨general, ?_⟩
  intro n
  have hA : lookupRecipe cycCatalog "A" = some ⟨1, 0, [("B", 1)]⟩ := by decide
  have hB : lookupRecipe cycCatalog "B" = some ⟨1, 0, [("A", 1)]⟩ := by decide
  have hnorm1 : jsNormalize (1 : ℚ) = 1 := by
    rw [jsNormalize, jsRound]; norm_num
  -- innermost: crafting "A" with "A" already on the stack throws
  have hinner : craftOneF n cycCatalog zeroMap zeroMap "A" true ["B", "A"] =
      some (.error ()) :=
    general n _ _ _ _ _ _ _ hA (by simp)
  -- the while loop for ingredient "A" of recipe "B" propagates the error
  have hens2 : ensureOneF (n + 1) cycCatalog zeroMap zeroMap "A" 1 true ["B", "A"] =
      some (.error ()) := by
    rw [ensureOneF_step n _ _ _ _ _ _ (by rw [zeroMap]; norm_num) (by rw [hA]; rfl)]
    rw [hinner]
  -- crafting "B" (with "A" on the stack) therefore throws
  have hcraftB : craftOneF (n + 1) cycCatalog zeroMap zeroMap "B" true ["A"] =
      some (.error ()) := by
    rw [craftOneF_eq (n + 1) _ _ _ _ _ _ _ hB (by simp)]
    rw [ensureAllF]
    simp only [hnorm1]
    rw [hens2]
  -- and the outer craft of "A" from the empty stack surfaces the error
  rw [craftOneF_eq (n + 2) _ _ _ _ _ _ _ hA (by simp)]
  rw [ensureAllF]
  simp only [hnorm1]
  have hens1 : ensureOneF (n + 2) cycCatalog zeroMap zeroMap "B" 1 true ["A"] =
      some (.error ()) := by
    rw [ensureOneF_step (n + 1) _ _ _ _ _ _ (by rw [zeroMap]; norm_num) (by rw [hB]; rfl)]
    rw [hcraftB]
  rw [hens1]

/-- Witness for C3's cycle guard, applied with `A` already on the stack. -/
theorem craftOneF_cycle_witness :
    craftOneF 0 cycCatalog zeroMap zeroMap "A" true ["A"] = some (.error ()) :=
  craftOneF_cycle.1 0 cycCatalog zeroMap zeroMap "A" true ["A"]
    ⟨1, 0, [("B", 1)]⟩ (by decide) (by simp)

/-! ### C2: non-termination on an acyclic catalog -/

/-- An acyclic catalog with a single recipe that has no ingredients. -/
def freeCatalog : Recipes := [("A", ⟨10, 100, []⟩)]

/-- Crafting `A` from `freeCatalog` always succeeds: there is no
ingredient to run out of. -/
theorem craftOneF_free_success (fuel : ℕ) (inv cnt : CountMap) :
    craftOneF fuel freeCatalog inv cnt "A" false [] =
      some (.ok (craftSuccess ⟨10, 100, []⟩ inv cnt "A")) := by
  rw [craftOneF_direct fuel freeCatalog inv cnt "A" [] ⟨10, 100, []⟩ (by decide)
    (List.not_mem_nil "A")]
  rfl

/-- C2 refutation (code bug): on the acyclic catalog `freeCatalog` the
`simulateCraftMode` loop never terminates — every fuel bound is
exhausted, for every starting inventory and craft-count map — because
`craftOne` succeeds unconditionally when the recipe has no ingredients.
The claim (and the spec) promise termination for every acyclic (DAG)
catalog. -/
theorem simulateCraftMode_free_diverges (fuel : ℕ) (inv cnt : CountMap) :
    simulateCraftModeF fuel freeCatalog inv cnt "A" false = none := by
  rw [simulateCraftModeF]
  generalize cloneCountMap inv = inv'
  generalize cloneCountMap cnt = cnt'
  induction fuel generalizing inv' cnt' with
  | zero => rw [simulateLoopF]
  | succ n ih =>
    rw [simulateLoopF, craftOneF_free_success]
    simp only [craftSuccess]
    rw [ih]
    simp

/-! ### C9: the concrete one-recipe scenario -/

/-- The scenario catalog: `A` yields 5 XP, costs 0, needs 2 `raw`. -/
def catA : Recipes := [("A", ⟨5, 0, [("raw", 2)]⟩)]

/-- The scenario inventory: 10 `raw` on hand. -/
def invRaw10 : CountMap := fun k => if k = "raw" then 10 else 0

/-- Normalization is the identity on non-negative whole values. -/
theorem jsNormalize_intCast (z : ℤ) (hz : 0 ≤ z) : jsNormalize ((z : ℤ) : ℚ) = z := by
  rw [jsNormalize, jsRound, add_comm, Int.floor_add_int]
  norm_num [max_eq_right hz]

/-- C9 counterexample: the generated problem text for the scenario
catalog does NOT contain the constraint line `c_raw: 2 A <= 10`: the
`Subject To` loop only visits catalog keys, and `raw` is not one. -/
theorem getProblem_no_raw_constraint :
    getProblemLines catA invRaw10 =
      ["Maximize", "  obj: 5 A", "Subject To", "Bounds", "  A >= 0",
        "General", "  A", "End"] ∧
    "  c_raw: 2 A <= 10" ∉ getProblemLines catA invRaw10 := by
  have hmap : List.map Prod.fst catA = ["A"] := rfl
  have hlines : getProblemLines catA invRaw10 =
      ["Maximize", "  obj: 5 A", "Subject To", "Bounds", "  A >= 0",
        "General", "  A", "End"] := by
    unfold getProblemLines
    rw [hmap, List.mergeSort_singleton]
    decide
  rw [hlines]
  exact ⟨rfl, by decide⟩

/-- One direct-mode craft of `A` in the scenario when enough `raw` is on
hand. -/
theorem catA_craft_step (g : ℕ) (inv cnt : CountMap) (h : 2 ≤ inv "raw") :
    craftOneF g catA inv cnt "A" false [] =
      some (.ok ⟨true,
        Function.update (Function.update inv "raw" (max 0 (inv "raw" - 2))) "A"
          ((Function.update inv "raw" (max 0 (inv "raw" - 2))) "A" + 1),
        Function.update cnt "A" (cnt "A" + 1), 0⟩) := by
  have hn2 : jsNormalize (2 : ℚ) = 2 := by
    have := jsNormalize_intCast 2 (by norm_num)
    norm_num at this
    exact_mod_cast this
  rw [craftOneF_direct g catA inv cnt "A" [] ⟨5, 0, [("raw", 2)]⟩ (by decide)
    (List.not_mem_nil "A")]
  rw [if_pos (by simp [allSufficient, hn2, h])]
  rw [craftSuccess]
  simp only [deductIngredients, List.foldl_cons, List.foldl_nil, hn2]
  rw [getDiscountedCost_nonpos_eq _ _ le_rfl]

/-- A failing direct-mode craft of `A` in the scenario when `raw` has run
out. -/
theorem catA_craft_fail (g : ℕ) (inv cnt : CountMap) (h : inv "raw" < 2) :
    craftOneF g catA inv cnt "A" false [] = some (.ok ⟨false, inv, cnt, 0⟩) := by
  have hn2 : jsNormalize (2 : ℚ) = 2 := by
    have := jsNormalize_intCast 2 (by norm_num)
    norm_num at this
    exact_mod_cast this
  rw [craftOneF_direct g catA inv cnt "A" [] ⟨5, 0, [("raw", 2)]⟩ (by decide)
    (List.not_mem_nil "A")]
  rw [if_neg (by simp [allSufficient, hn2, not_le.mpr h])]

/-- The scenario simulation crafts exactly `k` times when `raw` is
between `2k` and `2k + 1`. -/
theorem catA_sim (k : ℕ) : ∀ (n : ℕ) (inv cnt : CountMap),
    2 * (k : ℚ) ≤ inv "raw" → inv "raw" < 2 * (k : ℚ) + 2 →
    simulateLoopF (n + (k + 1)) catA inv cnt "A" false = some (.ok (k, 0)) := by
  induction k with
  | zero =>
    intro n inv cnt _ hup
    rw [simulateLoopF, catA_craft_fail _ _ _ (by push_cast at hup; linarith)]
    simp
  | succ k ih =>
    intro n inv cnt hlo hup
    have h2 : 2 ≤ inv "raw" := by push_cast at hlo; linarith
    have harith : n + (k + 1 + 1) = (n + (k + 1)) + 1 := by omega
    rw [harith, simulateLoopF, catA_craft_step _ _ _ h2]
    simp only [if_pos rfl]
    have hraw : (Function.update (Function.update inv "raw" (max 0 (inv "raw" - 2))) "A"
        ((Function.update inv "raw" (max 0 (inv "raw" - 2))) "A" + 1)) "raw" =
        inv "raw" - 2 := by
      rw [Function.update_apply, if_neg (by decide), Function.update_apply, if_pos rfl]
      rw [max_eq_right (by linarith)]
    rw [ih n _ _ (by rw [hraw]; push_cast at hlo ⊢; linarith)
      (by rw [hraw]; push_cast at hup ⊢; linarith)]
    norm_num

/-- C9 amended: `getConstraint` applied to `raw` does yield the
inequality `2 A <= 10` (though `getProblem` never requests it), and
direct-mode simulation of `A` crafts exactly 5 units (at zero cost)
before failing for lack of `raw`. -/
theorem getConstraint_raw_and_five_crafts :
    getConstraint catA invRaw10 "raw" = some "2 A <= 10" ∧
    (∀ n : ℕ,
      simulateCraftModeF (n + 6) catA invRaw10 zeroMap "A" false = some (.ok (5, 0))) := by
  constructor
  · decide
  · intro n
    have hclone1 : cloneCountMap invRaw10 = invRaw10 := by
      funext k
      rw [cloneCountMap, invRaw10]
      by_cases hk : k = "raw"
      · rw [if_pos hk]
        have := jsNormalize_intCast 10 (by norm_num)
        norm_num at this ⊢
        exact_mod_cast this
      · rw [if_neg hk]
        have := jsNormalize_intCast 0 (by norm_num)
        norm_num at this ⊢
        exact_mod_cast this
    have hclone2 : cloneCountMap zeroMap = zeroMap := by
      funext k
      rw [cloneCountMap, zeroMap]
      have := jsNormalize_intCast 0 (by norm_num)
      norm_num at this ⊢
      exact_mod_cast this
    rw [simulateCraftModeF, hclone1, hclone2]
    have h10 : invRaw10 "raw" = 10 := by rw [invRaw10]; simp
    have harith : n + 6 = n + (5 + 1) := by omega
    rw [harith]
    exact catA_sim 5 n invRaw10 zeroMap (by rw [h10]; norm_num) (by rw [h10]; norm_num)

/-! ### C4: auto-craft achieves at least the direct-mode count -/

/-- The replay argument: any terminating direct-mode simulation run is an
initial segment of any terminating auto-mode run from the same state, so
the direct-mode craft count is a lower bound. -/
theorem simulateLoopF_direct_le_auto (rs : Recipes) (a : String) : ∀ (f2 f1 : ℕ)
    (inv cnt : CountMap) (d k : ℕ) (cd ca : ℚ),
    simulateLoopF f2 rs inv cnt a false = some (.ok (d, cd)) →
    simulateLoopF f1 rs inv cnt a true = some (.ok (k, ca)) →
    d ≤ k := by
  intro f2
  induction f2 with
  | zero =>
    intro f1 inv cnt d k cd ca hd _
    rw [simulateLoopF] at hd
    cases hd
  | succ n ih =>
    intro f1 inv cnt d k cd ca hd ha
    rw [simulateLoopF] at hd
    cases hc : craftOneF (n + 1) rs inv cnt a false [] with
    | none => rw [hc] at hd; cases hd
    | some ex =>
      cases ex with
      | error e => rw [hc] at hd; simp at hd
      | ok r =>
        rw [hc] at hd
        by_cases hs : r.success = true
        · simp only [hs, if_true] at hd
          cases f1 with
          | zero => rw [simulateLoopF] at ha; cases ha
          | succ m =>
            have hrep := craftOneF_replay (n + 1) (m + 1) rs inv cnt a [] true r hc hs
            rw [simulateLoopF, hrep] at ha
            simp only [hs, if_true] at ha
            cases hd2 : simulateLoopF n rs r.inv r.counts a false with
            | none => rw [hd2] at hd; cases hd
            | some ex2 =>
              cases ex2 with
              | error e => rw [hd2] at hd; simp at hd
              | ok p =>
                obtain ⟨d', cd'⟩ := p
                rw [hd2] at hd
                simp only [Option.some.injEq, Except.ok.injEq, Prod.mk.injEq] at hd
                cases ha2 : simulateLoopF m rs r.inv r.counts a true with
                | none => rw [ha2] at ha; cases ha
                | some ex3 =>
                  cases ex3 with
                  | error e => rw [ha2] at ha; simp at ha
                  | ok p2 =>
                    obtain ⟨k', ca'⟩ := p2
                    rw [ha2] at ha
                    simp only [Option.some.injEq, Except.ok.injEq, Prod.mk.injEq] at ha
                    have hdk : d' ≤ k' := ih m r.inv r.counts d' k' cd' ca' hd2 ha2
                    omega
        · rw [Bool.not_eq_true] at hs
          simp only [hs, Bool.false_eq_true, if_false, Option.some.injEq,
            Except.ok.injEq, Prod.mk.injEq] at hd
          omega

/-- C4: for every catalog, inventory and craft-count map, and every
artifact with at least one craftable ingredient, whenever both
simulations terminate the craft count achieved with
`allowAutocraft = true` is at least the count achieved with
`allowAutocraft = false`. -/
theorem simulateCraftMode_auto_ge_direct (rs : Recipes) (inv cnt : CountMap)
    (a : String) (recipe : Recipe) (f1 f2 : ℕ) (d k : ℕ) (cd ca : ℚ)
    (hl : lookupRecipe rs a = some recipe)
    (hcraftable : ∃ p ∈ recipe.ingredients, (lookupRecipe rs p.1).isSome = true)
    (hdirect : simulateCraftModeF f2 rs inv cnt a false = some (.ok (d, cd)))
    (hauto : simulateCraftModeF f1 rs inv cnt a true = some (.ok (k, ca))) :
    d ≤ k := by
  rw [simulateCraftModeF] at hdirect hauto
  exact simulateLoopF_direct_le_auto rs a f2 f1 _ _ d k cd ca hdirect hauto

/-- A two-level catalog for the C4 witness: `A` needs 1 `B` (craftable),
`B` needs 2 `raw` (raw, non-craftable). -/
def demoAuto : Recipes :=
  [("A", ⟨1, 0, [("B", 1)]⟩), ("B", ⟨1, 0, [("raw", 2)]⟩)]

/-- `cloneCountMap` fixes the all-zero map. -/
theorem cloneCountMap_zeroMap : cloneCountMap zeroMap = zeroMap := by
  funext k
  rw [cloneCountMap, zeroMap]
  have := jsNormalize_intCast 0 (by norm_num)
  norm_num at this ⊢
  exact_mod_cast this

/-- Witness for C4 on `demoAuto` from an empty inventory: both modes
terminate with count 0, and the theorem yields `0 ≤ 0`. -/
theorem simulateCraftMode_auto_ge_direct_witness :
    simulateCraftModeF 1 demoAuto zeroMap zeroMap "A" false = some (.ok (0, 0)) ∧
    simulateCraftModeF 1 demoAuto zeroMap zeroMap "A" true = some (.ok (0, 0)) ∧
    (0 : ℕ) ≤ 0 := by
  have hA : lookupRecipe demoAuto "A" = some ⟨1, 0, [("B", 1)]⟩ := by decide
  have hB : lookupRecipe demoAuto "B" = some ⟨1, 0, [("raw", 2)]⟩ := by decide
  have hnorm1 : jsNormalize (1 : ℚ) = 1 := by
    rw [jsNormalize, jsRound]; norm_num
  have hnorm2 : jsNormalize (2 : ℚ) = 2 := by
    rw [jsNormalize, jsRound]; norm_num
  have hdirect : simulateCraftModeF 1 demoAuto zeroMap zeroMap "A" false =
      some (.ok (0, 0)) := by
    rw [simulateCraftModeF, cloneCountMap_zeroMap, simulateLoopF]
    rw [craftOneF_direct 1 demoAuto zeroMap zeroMap "A" [] ⟨1, 0, [("B", 1)]⟩ hA
      (List.not_mem_nil "A")]
    rw [if_neg (by simp [allSufficient, hnorm1, zeroMap])]
    simp
  have hauto : simulateCraftModeF 1 demoAuto zeroMap zeroMap "A" true =
      some (.ok (0, 0)) := by
    rw [simulateCraftModeF, cloneCountMap_zeroMap, simulateLoopF]
    -- auto-crafting B fails because raw is short and not craftable
    have hraw : ensureOneF 0 demoAuto zeroMap zeroMap "raw" 2 true ["B", "A"] =
        some (.ok ⟨false, zeroMap, zeroMap, 0⟩) := by
      rw [ensureOneF.eq_def]
      have hz : zeroMap "raw" < 2 := by rw [zeroMap]; norm_num
      have hrawlook : lookupRecipe demoAuto "raw" = none := by decide
      simp [hz, hrawlook]
    have hcraftB : craftOneF 0 demoAuto zeroMap zeroMap "B" true ["A"] =
        some (.ok ⟨false, zeroMap, zeroMap, 0⟩) := by
      rw [craftOneF_eq 0 demoAuto zeroMap zeroMap "B" true ["A"] ⟨1, 0, [("raw", 2)]⟩ hB
        (by simp)]
      rw [ensureAllF]
      simp only [hnorm2]
      rw [hraw]
      simp
    have hensB : ensureOneF 1 demoAuto zeroMap zeroMap "B" 1 true ["A"] =
        some (.ok ⟨false, zeroMap, zeroMap, 0⟩) := by
      rw [ensureOneF_step 0 demoAuto zeroMap zeroMap "B" 1 ["A"]
        (by rw [zeroMap]; norm_num) (by rw [hB]; rfl)]
      rw [hcraftB]
      simp
    rw [craftOneF_eq 1 demoAuto zeroMap zeroMap "A" true [] ⟨1, 0, [("B", 1)]⟩ hA
      (by simp)]
    rw [ensureAllF]
    simp only [hnorm1]
    rw [hensB]
    simp
  exact ⟨hdirect, hauto,
    simulateCraftMode_auto_ge_direct demoAuto zeroMap zeroMap "A" ⟨1, 0, [("B", 1)]⟩
      1 1 0 0 0 0 hA ⟨("B", 1), by simp, by rw [hB]; rfl⟩ hdirect hauto⟩

/-! ### C1: no solver-response validation -/

/-- C1 counterexample: when the solver returns no usable column data the
orchestrator silently returns a `Solution` with no rows and zero totals —
exactly what the claim says it must not do — rather than any error. -/
theorem optimizeCrafts_empty_columns_silent :
    optimizeCraftsF 1 catA (fun _ => []) invRaw10 zeroMap =
      some (.ok ⟨[], 0, 0⟩) := by
  rw [optimizeCraftsF]
  rw [optimizeCraftsLoopF]

/-- C1 amended: `optimizeCrafts` performs no validation of the solver
response; whenever the solver yields no column data it returns a normal
`Solution` with no craft rows and zero totals instead of surfacing a
solver-failure error. -/
theorem optimizeCrafts_no_columns (fuel : ℕ) (rs : Recipes)
    (solve : String → List (String × ℚ)) (inv cnt : CountMap)
    (h : solve (getProblem rs inv) = []) :
    optimizeCraftsF fuel rs solve inv cnt = some (.ok ⟨[], 0, 0⟩) := by
  rw [optimizeCraftsF, h, optimizeCraftsLoopF]

/-- Witness for C1's amended theorem with a constantly-empty solver. -/
theorem optimizeCrafts_no_columns_witness :
    optimizeCraftsF 2 demoAuto (fun _ => []) zeroMap zeroMap =
      some (.ok ⟨[], 0, 0⟩) :=
  optimizeCrafts_no_columns 2 demoAuto (fun _ => []) zeroMap zeroMap rfl

end Craft
